import Mathlib

/-
Verification of the syntax-checking / highlighting core of src/main.py
(a PyQt5 code editor).  The Python source is shallowly embedded below:

  * `SyntaxChecker.run`           (src/main.py lines 31-43)
  * `PythonHighlighter.onSyntaxChecked`   (lines 148-156)
  * `PythonHighlighter.highlightMultiline` (lines 177-193)
  * `PythonHighlighter.highlightBlock`    (lines 158-175)
  * the debounce timer wiring     (lines 77-79, 133-134)
  * `CodeEditor.updateErrorList`, `closeTab`, `onTabChanged`,
    `openFileInTab` (highlighter attachment) and the hover tooltip
    event filter.

External collaborators (the CPython `compile` builtin, Qt regular
expressions, QTimer, threads) are modelled as explicit inputs: `compile`
as a `CompileOutcome` value, regex rules as match functions, the timer
by its restart semantics, and thread completions as an arrival list.
-/

/-- Outcome of the CPython builtin `compile(text, "<document>", "exec")`,
the host-language collaborator called by `SyntaxChecker.run`.  A parse
either succeeds, raises `SyntaxError` (carrying optional `lineno`,
optional `offset` — both 1-based when present — and a message), or
raises some other exception (e.g. under Python 3.6 a NUL byte in the
source raises `ValueError`, and deeply nested input can raise
`RecursionError` or `MemoryError`). -/
inductive CompileOutcome where
  | ok : CompileOutcome
  | syntaxError (lineno : Option Nat) (offset : Option Nat) (message : String) : CompileOutcome
  | otherError (message : String) : CompileOutcome
deriving DecidableEq, Repr

/-- One emitted error record (the dict built in src/main.py lines 37-41):
`line` is `e.lineno - 1`, `col` is `e.offset - 1` when the offset is
known and `0` otherwise, both as (possibly negative) integers. -/
structure SynErr where
  line : Int
  col : Int
  message : String
deriving DecidableEq, Repr

/-- Embedding of `SyntaxChecker.run` (src/main.py lines 31-43).  The
`try` block calls `compile`; only `except SyntaxError` is installed, so
every other exception escapes the method: that is the `Except.error`
branch.  A caught `SyntaxError` is turned into one record only when
`e.lineno is not None`; otherwise the emitted list stays empty. -/
def SyntaxChecker.run : CompileOutcome → Except String (List SynErr)
  | CompileOutcome.ok => Except.ok []
  | CompileOutcome.syntaxError lineno offset message =>
      match lineno with
      | none => Except.ok []
      | some l =>
          Except.ok [⟨(l : Int) - 1,
                      (match offset with
                       | some o => (o : Int) - 1
                       | none => 0),
                      message⟩]
  | CompileOutcome.otherError message => Except.error message

/-- C1: the code catches only `SyntaxError`; any other exception raised
by `compile` (e.g. `ValueError` on a NUL byte in the source under
Python 3.6 — reachable because binary files may be opened decoded with
`errors='replace'`) propagates out of `SyntaxChecker.run`, crashing the
worker instead of being treated as "no result this cycle". -/
theorem C1_analyzer_crash_propagates :
    SyntaxChecker.run
        (CompileOutcome.otherError "ValueError: source code string cannot contain null bytes")
      = Except.error "ValueError: source code string cannot contain null bytes" := rfl

/-- C2: when `compile` reports the document's single defect at 1-based
line `L` and 1-based column `C` (so `1 ≤ C`), the analyzer emits exactly
one record with `line = L - 1` and `col = max (C - 1) 0`; moreover every
successfully emitted list has length at most one. -/
theorem C2_single_error_offsets (L C : Nat) (msg : String) (hC : 1 ≤ C) :
    SyntaxChecker.run (CompileOutcome.syntaxError (some L) (some C) msg)
      = Except.ok [⟨(L : Int) - 1, max ((C : Int) - 1) 0, msg⟩]
    ∧ ∀ o errs, SyntaxChecker.run o = Except.ok errs → errs.length ≤ 1 := by
  constructor
  · have hmax : max ((C : Int) - 1) 0 = (C : Int) - 1 := by
      apply max_eq_left
      omega
    rw [hmax]
    rfl
  · intro o errs h
    cases o with
    | ok =>
        simp only [SyntaxChecker.run, Except.ok.injEq] at h
        subst h; simp
    | syntaxError lineno offset message =>
        cases lineno with
        | none =>
            simp only [SyntaxChecker.run, Except.ok.injEq] at h
            subst h; simp
        | some l =>
            simp only [SyntaxChecker.run, Except.ok.injEq] at h
            subst h; simp
    | otherError message => simp [SyntaxChecker.run] at h

/-- Witness for C2 at the concrete defect position L = 1, C = 1. -/
theorem C2_single_error_offsets_witness :
    SyntaxChecker.run (CompileOutcome.syntaxError (some 1) (some 1) "invalid syntax")
      = Except.ok [⟨0, 0, "invalid syntax"⟩] := by
  have h := (C2_single_error_offsets 1 1 "invalid syntax" (by decide)).1
  simpa using h

/-- Python-dict insertion (`d[k] = v`): overwrite in place when the key
is present, append otherwise (insertion order preserved, as CPython
dicts do). -/
def insertKV {α : Type} (d : List (Int × α)) (k : Int) (v : α) : List (Int × α) :=
  if d.any (fun p => p.1 = k) then
    d.map (fun p => if p.1 = k then (k, v) else p)
  else d ++ [(k, v)]

/-- The two per-document error mappings held by `PythonHighlighter`
(src/main.py lines 81-82): `error_positions` maps a block number to
`(col, underline length)`, `error_details` maps it to the message. -/
structure HLState where
  error_positions : List (Int × Int × Nat)
  error_details : List (Int × String)
deriving DecidableEq, Repr

/-- The empty state both dictionaries start from (src/main.py 81-82). -/
def hlInit : HLState := ⟨[], []⟩

/-- Embedding of `PythonHighlighter.onSyntaxChecked` (src/main.py lines
148-156): both dictionaries are reset to `{}` and rebuilt from the
received error list; the previous state `_st` is discarded entirely.
The emit/rehighlight calls carry no state and are omitted. -/
def PythonHighlighter.onSyntaxChecked (errors : List SynErr) (_st : HLState) : HLState :=
  ⟨errors.foldl (fun d e => insertKV d e.line (e.col, 1)) [],
   errors.foldl (fun d e => insertKV d e.line e.message) []⟩

/-- Embedding of the result-arrival behaviour of the check runner: each
finished `SyntaxChecker` emission invokes `onSyntaxChecked` on the UI
thread, in arrival order, with no sequence number or staleness check
(src/main.py lines 136-156).  `arrivals` lists the emitted error lists
in the order the `syntaxChecked` signals are delivered. -/
def publishedAfter (arrivals : List (List SynErr)) (init : HLState) : HLState :=
  arrivals.foldl (fun st errs => PythonHighlighter.onSyntaxChecked errs st) init

/-- Embedding of `PythonHighlighter.checkSyntax` (src/main.py lines
136-146) as far as in-flight tracking is concerned: it unconditionally
creates a fresh `QThread` and worker and starts it, with no guard on a
check already running, so the number of in-flight analyses just grows
by one. -/
def PythonHighlighter.checkSyntaxSpawn (running : Nat) : Nat := running + 1

/-- C3 counterexample: cycle A starts first and returns one error
("stale"); cycle B starts later and returns no errors.  B's signal
arrives first, A's second.  The claim says the published index must
then reflect B (the latest-started completed cycle, i.e. the empty
state), but the code applies results in arrival order with no
staleness check, so A's stale result is what ends up published. -/
theorem C3_counterexample :
    publishedAfter [[], [⟨0, 0, "stale"⟩]] hlInit
      ≠ PythonHighlighter.onSyntaxChecked [] hlInit := by decide

/-- C3 amended: results are applied in signal-arrival order, each one
wholesale replacing the index, so after any nonempty sequence of
arrivals the published index is that of the last-arrived result —
which need not be the latest-started cycle; and `checkSyntax` spawns a
new worker thread unconditionally, so nothing bounds the number of
in-flight analyses to one. -/
theorem C3_last_arrival_wins (arrivals : List (List SynErr)) (init : HLState)
    (h : arrivals ≠ []) :
    publishedAfter arrivals init
      = PythonHighlighter.onSyntaxChecked (arrivals.getLast h) init
    ∧ ∀ n, PythonHighlighter.checkSyntaxSpawn n = n + 1 := by
  have key : ∀ (rest : List (List SynErr)) (a : List SynErr) (init : HLState),
      publishedAfter (a :: rest) init
        = PythonHighlighter.onSyntaxChecked ((a :: rest).getLast (by simp)) init := by
    intro rest
    induction rest with
    | nil => intro a init; rfl
    | cons b rest' ih =>
        intro a init
        have step : publishedAfter (a :: b :: rest') init
            = publishedAfter (b :: rest') (PythonHighlighter.onSyntaxChecked a init) := rfl
        rw [step, ih b (PythonHighlighter.onSyntaxChecked a init)]
        rfl
  refine ⟨?_, fun n => rfl⟩
  cases arrivals with
  | nil => exact absurd rfl h
  | cons a rest => exact key rest a init

/-- Witness for C3's amended theorem on a concrete two-arrival trace. -/
theorem C3_last_arrival_wins_witness :
    publishedAfter [[], [⟨1, 2, "m"⟩]] hlInit
      = PythonHighlighter.onSyntaxChecked [⟨1, 2, "m"⟩] hlInit :=
  (C3_last_arrival_wins [[], [⟨1, 2, "m"⟩]] hlInit (by decide)).1

/-- Keyed insertion into a dictionary whose keys avoid `k` is a plain
append. -/
theorem insertKV_of_not_mem {α : Type} (d : List (Int × α)) (k : Int) (v : α)
    (h : ∀ p ∈ d, p.1 ≠ k) : insertKV d k v = d ++ [(k, v)] := by
  have hany : d.any (fun p => p.1 = k) = false := by
    simp only [List.any_eq_false]
    intro p hp
    simpa using h p hp
  simp [insertKV, hany]

/-- Folding keyed insertions of errors with pairwise-distinct lines over
a dictionary disjoint from those lines appends one entry per error, in
order. -/
theorem foldl_insertKV_eq_append {α : Type} (f : SynErr → α) :
    ∀ (errors : List SynErr) (acc : List (Int × α)),
      (errors.map SynErr.line).Nodup →
      (∀ p ∈ acc, ∀ e ∈ errors, p.1 ≠ e.line) →
      errors.foldl (fun d e => insertKV d e.line (f e)) acc
        = acc ++ errors.map (fun e => (e.line, f e)) := by
  intro errors
  induction errors with
  | nil => intro acc _ _; simp
  | cons e rest ih =>
      intro acc hnd hdisj
      have hacc : ∀ p ∈ acc, p.1 ≠ e.line := by
        intro p hp
        exact hdisj p hp e (by simp)
      have hstep : insertKV acc e.line (f e) = acc ++ [(e.line, f e)] :=
        insertKV_of_not_mem acc e.line (f e) hacc
      rw [List.map_cons] at hnd
      have hnotmem : e.line ∉ rest.map SynErr.line := (List.nodup_cons.mp hnd).1
      have hnd' : (rest.map SynErr.line).Nodup := (List.nodup_cons.mp hnd).2
      have hhead : ∀ e' ∈ rest, e.line ≠ e'.line := by
        intro e' he' hcontra
        exact hnotmem (hcontra ▸ List.mem_map_of_mem SynErr.line he')
      have hdisj' : ∀ p ∈ acc ++ [(e.line, f e)], ∀ e' ∈ rest, p.1 ≠ e'.line := by
        intro p hp e' he'
        rcases List.mem_append.mp hp with hin | hin
        · exact hdisj p hin e' (by simp [he'])
        · have : p = (e.line, f e) := by simpa using hin
          rw [this]
          exact hhead e' he'
      calc (e :: rest).foldl (fun d e => insertKV d e.line (f e)) acc
          = rest.foldl (fun d e => insertKV d e.line (f e)) (insertKV acc e.line (f e)) := rfl
        _ = rest.foldl (fun d e => insertKV d e.line (f e)) (acc ++ [(e.line, f e)]) := by
              rw [hstep]
        _ = (acc ++ [(e.line, f e)]) ++ rest.map (fun e => (e.line, f e)) :=
              ih (acc ++ [(e.line, f e)]) hnd' hdisj'
        _ = acc ++ (e :: rest).map (fun e => (e.line, f e)) := by simp

/-- C7: after any run of `onSyntaxChecked` on errors with distinct lines
(the analyzer emits at most one error, so lines are always distinct),
the result is independent of the previous state (no carry-over: both
dictionaries are rebuilt from scratch together), `error_positions` holds
exactly one `(col, 1)` entry per reported error, and `error_details`
exactly one message entry per reported error — hence both mappings have
the same key sequence, the reported lines. -/
theorem C7_mappings_replaced_together (errors : List SynErr) (prev prev' : HLState)
    (h : (errors.map SynErr.line).Nodup) :
    PythonHighlighter.onSyntaxChecked errors prev
      = PythonHighlighter.onSyntaxChecked errors prev'
    ∧ (PythonHighlighter.onSyntaxChecked errors prev).error_positions
        = errors.map (fun e => (e.line, e.col, 1))
    ∧ (PythonHighlighter.onSyntaxChecked errors prev).error_details
        = errors.map (fun e => (e.line, e.message))
    ∧ (PythonHighlighter.onSyntaxChecked errors prev).error_positions.map Prod.fst
        = (PythonHighlighter.onSyntaxChecked errors prev).error_details.map Prod.fst := by
  have hpos :
      (PythonHighlighter.onSyntaxChecked errors prev).error_positions
        = errors.map (fun e => (e.line, e.col, 1)) := by
    have := foldl_insertKV_eq_append (fun e => (e.col, 1)) errors [] h (by simp)
    simpa [PythonHighlighter.onSyntaxChecked] using this
  have hdet :
      (PythonHighlighter.onSyntaxChecked errors prev).error_details
        = errors.map (fun e => (e.line, e.message)) := by
    have := foldl_insertKV_eq_append (fun e => e.message) errors [] h (by simp)
    simpa [PythonHighlighter.onSyntaxChecked] using this
  refine ⟨rfl, hpos, hdet, ?_⟩
  rw [hpos, hdet]
  simp

/-- Witness for C7 on a concrete one-error cycle over distinct previous
states. -/
theorem C7_mappings_replaced_together_witness :
    PythonHighlighter.onSyntaxChecked [⟨3, 0, "bad"⟩] ⟨[(9, 9, 9)], [(9, "old")]⟩
      = PythonHighlighter.onSyntaxChecked [⟨3, 0, "bad"⟩] hlInit
    ∧ (PythonHighlighter.onSyntaxChecked [⟨3, 0, "bad"⟩] ⟨[(9, 9, 9)], [(9, "old")]⟩).error_positions
        = [(3, 0, 1)] := by
  have h := C7_mappings_replaced_together [⟨3, 0, "bad"⟩] ⟨[(9, 9, 9)], [(9, "old")]⟩ hlInit
      (by decide)
  exact ⟨h.1, by simpa using h.2.1⟩

/-- Python's `text.find(sub, start)` on character lists: the least index
`j ≥ start` at which `sub` occurs in `text` (the match lying fully
inside `text`), or `none` when there is no such occurrence. -/
def strFind (t d : List Char) (start : Nat) : Option Nat :=
  (List.range (t.length + 1)).find? fun j =>
    decide (start ≤ j ∧ (t.drop j).take d.length = d)

/-- A window match at `j` lies inside the text (for a nonempty needle). -/
theorem takeDrop_window_le (t d : List Char) (j : Nat) (hd : d ≠ [])
    (h : (t.drop j).take d.length = d) : j + d.length ≤ t.length := by
  have hlen : ((t.drop j).take d.length).length = d.length := by rw [h]
  rw [List.length_take, List.length_drop] at hlen
  have hpos : 0 < d.length := List.length_pos.mpr hd
  omega

/-- Anything `strFind` returns is a genuine occurrence at or after
`start`. -/
theorem strFind_some (t d : List Char) (start j : Nat)
    (h : strFind t d start = some j) :
    start ≤ j ∧ (t.drop j).take d.length = d := by
  have := List.find?_some h
  simpa using this

/-- An occurrence found by `strFind` ends inside the text. -/
theorem strFind_some_le (t d : List Char) (start j : Nat) (hd : d ≠ [])
    (h : strFind t d start = some j) : j + d.length ≤ t.length :=
  takeDrop_window_le t d j hd (strFind_some t d start j h).2

/-- No occurrence of a nonempty needle can start so late that it would
overrun the text, so `strFind` from such a start index is `none`. -/
theorem strFind_none_of_lt (t d : List Char) (start : Nat) (hd : d ≠ [])
    (h : t.length < start + d.length) : strFind t d start = none := by
  apply List.find?_eq_none.mpr
  intro j _
  simp only [decide_eq_true_eq]
  rintro ⟨hsj, hmatch⟩
  have := takeDrop_window_le t d j hd hmatch
  omega

/-- The `while startIndex >= 0` loop of
`PythonHighlighter.highlightMultiline` (src/main.py lines 183-191),
fuel-recursive on an optional current start index.  Each iteration
searches for the closing delimiter strictly after the first
`d.length` characters of the current span (`text.find(delimiter,
startIndex + len(delimiter))`); when none is found the block state is
set to `1` and the span runs to the end of the line, otherwise the span
runs through the closer; either way the next start index is
`text.find(delimiter, startIndex + stringLength)`.  Returned are the
`setFormat` spans `(start, length)` in call order and whether
`setCurrentBlockState(1)` was executed. -/
def mlLoop (t d : List Char) : Nat → Option Nat → List (Nat × Nat) × Bool
  | _, none => ([], false)
  | 0, some _ => ([], false)
  | fuel + 1, some s =>
      match strFind t d (s + d.length) with
      | none =>
          let out := mlLoop t d fuel (strFind t d (s + (t.length - s)))
          ((s, t.length - s) :: out.1, true)
      | some e =>
          let out := mlLoop t d fuel (strFind t d (s + (e - s + d.length)))
          ((s, e - s + d.length) :: out.1, out.2)

/-- Unfolding equation of `mlLoop` on a live start index. -/
theorem mlLoop_succ (t d : List Char) (fuel s : Nat) :
    mlLoop t d (fuel + 1) (some s)
      = match strFind t d (s + d.length) with
        | none =>
            let out := mlLoop t d fuel (strFind t d (s + (t.length - s)))
            ((s, t.length - s) :: out.1, true)
        | some e =>
            let out := mlLoop t d fuel (strFind t d (s + (e - s + d.length)))
            ((s, e - s + d.length) :: out.1, out.2) := rfl

/-- Exhausted-start unfolding equation of `mlLoop`. -/
theorem mlLoop_none (t d : List Char) (fuel : Nat) :
    mlLoop t d fuel none = ([], false) := by
  cases fuel <;> rfl

/-- Embedding of `PythonHighlighter.highlightMultiline` (src/main.py
lines 177-193) for one delimiter.  Block states are Qt integers: `1`
encodes InsideTriple, anything else Outside (`-1` is a fresh block).
When the previous block state is not `1` the scan starts at the first
delimiter occurrence, otherwise at column 0; after the loop the block
state is clamped to `0` unless it is `1` (`cur` is the block's incoming
`currentBlockState()`). -/
def PythonHighlighter.highlightMultiline (t d : List Char) (prev cur : Int) :
    List (Nat × Nat) × Int :=
  let start : Option Nat := if prev ≠ 1 then strFind t d 0 else some 0
  let out := mlLoop t d (t.length + 2) start
  let cur' : Int := if out.2 then 1 else cur
  (out.1, if cur' ≠ 1 then 0 else 1)

/-- Modelled from the spec's words for claim C4 (refinement reference,
not from the source): with previous state InsideTriple the line is
"styled as string content from column 0 up to and including the first
closing delimiter" — i.e. the closer is searched from column 0 — and
scanning then resumes after it; with no closer the whole line is styled
and the state remains InsideTriple; outside a triple-quote the scan is
the same delimiter-toggling loop as the source's. -/
def multilineClaim (t d : List Char) (prev : Int) : List (Nat × Nat) × Int :=
  if prev = 1 then
    match strFind t d 0 with
    | none => ([(0, t.length)], 1)
    | some e =>
        let out := mlLoop t d (t.length + 2) (strFind t d (e + d.length))
        ((0, e + d.length) :: out.1, if out.2 then 1 else 0)
  else
    let out := mlLoop t d (t.length + 2) (strFind t d 0)
    (out.1, if out.2 then 1 else 0)

/-- C4 counterexample: previous state InsideTriple and the line is
exactly `"""`.  The first closing delimiter sits at column 0, so by the
claim the line is styled through it and the state returns to Outside;
the code instead searches for the closer only from column 3 on
(`text.find(delimiter, startIndex + len(delimiter))` with
`startIndex = 0`), finds nothing, and leaves the block InsideTriple. -/
theorem C4_counterexample :
    PythonHighlighter.highlightMultiline ['"', '"', '"'] ['"', '"', '"'] 1 (-1)
      ≠ multilineClaim ['"', '"', '"'] ['"', '"', '"'] 1 := by decide

/-- C4 amended: the two-valued state threading holds with one repair —
with previous state InsideTriple the closing delimiter is searched only
from column `d.length` onward, so a closer ending at column `< 2 ·
d.length` is missed and the line stays InsideTriple.  Precisely, for a
nonempty delimiter: (i) outside, no delimiter on the line: no span,
state Outside; (ii) outside, an opener at `i` with no closer at or
after `i + d.length`: the span runs from `i` to end of line and the
state becomes InsideTriple; (iii) inside, no closer at or after column
`d.length`: the whole line is one span and the state stays InsideTriple;
(iv) inside, first closer found at `e ≥ d.length`: the first span runs
from column 0 through that closer. -/
theorem C4_multiline_state (t d : List Char) (hd : d ≠ []) :
    (strFind t d 0 = none →
        PythonHighlighter.highlightMultiline t d 0 (-1) = ([], 0))
    ∧ (∀ i, strFind t d 0 = some i → strFind t d (i + d.length) = none →
        PythonHighlighter.highlightMultiline t d 0 (-1) = ([(i, t.length - i)], 1))
    ∧ (strFind t d d.length = none →
        PythonHighlighter.highlightMultiline t d 1 (-1) = ([(0, t.length)], 1))
    ∧ (∀ e, strFind t d d.length = some e →
        (PythonHighlighter.highlightMultiline t d 1 (-1)).1.head?
          = some (0, e + d.length)) := by
  refine ⟨?_, ?_, ?_, ?_⟩
  · intro h0
    simp [PythonHighlighter.highlightMultiline, h0, mlLoop_none]
  · intro i h0 hclose
    have hle : i + d.length ≤ t.length := strFind_some_le t d 0 i hd h0
    have htail : strFind t d (i + (t.length - i)) = none := by
      have : i + (t.length - i) = t.length := by omega
      rw [this]
      exact strFind_none_of_lt t d t.length hd (by
        have : 0 < d.length := List.length_pos.mpr hd
        omega)
    have hfuel : t.length + 2 = (t.length + 1) + 1 := rfl
    simp only [PythonHighlighter.highlightMultiline, h0, hfuel]
    rw [if_pos (by decide), mlLoop_succ, hclose]
    simp [htail, mlLoop_none]
  · intro hclose
    have hclose0 : strFind t d (0 + d.length) = none := by simpa using hclose
    have htail : strFind t d t.length = none :=
      strFind_none_of_lt t d t.length hd (by
        have : 0 < d.length := List.length_pos.mpr hd
        omega)
    have hfuel : t.length + 2 = (t.length + 1) + 1 := rfl
    simp only [PythonHighlighter.highlightMultiline, hfuel]
    rw [if_neg (by decide), mlLoop_succ, hclose0]
    simp [htail, mlLoop_none]
  · intro e hclose
    have hclose0 : strFind t d (0 + d.length) = some e := by simpa using hclose
    have hfuel : t.length + 2 = (t.length + 1) + 1 := rfl
    simp only [PythonHighlighter.highlightMultiline, hfuel]
    rw [if_neg (by decide), mlLoop_succ, hclose0]
    simp

/-- Witness for C4's amended theorem: previous state InsideTriple, a
line with no triple quote at all stays fully styled and InsideTriple. -/
theorem C4_multiline_state_witness :
    PythonHighlighter.highlightMultiline ['a', 'b', 'c', 'd', 'e'] ['"', '"', '"'] 1 (-1)
      = ([(0, 5)], 1) :=
  (C4_multiline_state ['a', 'b', 'c', 'd', 'e'] ['"', '"', '"'] (by decide)).2.2.1
    (by decide)

/-- Style id of `tripleQuoteFormat` (src/main.py lines 122-123). -/
def tripleQuoteStyle : Nat := 6

/-- Style id of `errorFormat`, the red wavy underline (src/main.py
lines 126-128). -/
def errorStyle : Nat := 7

/-- One static highlighting rule: the Qt regular expression is modelled
as its global-match function (list of `(capturedStart, capturedLength)`
in iteration order) together with the style id of its format. -/
def HighlightRule : Type := (List Char → List (Nat × Nat)) × Nat

/-- Python-dict lookup `d[k]` on the embedded `error_positions` map. -/
def errLookup (d : List (Int × Int × Nat)) (k : Int) : Option (Int × Nat) :=
  (d.find? fun p => p.1 = k).map (fun p => p.2)

/-- The part of `PythonHighlighter.highlightBlock` before the error
overlay (src/main.py lines 159-169): every rule's matches become
`setFormat` spans in rule order, then `highlightMultiline` runs for
`"""` and for `'''`, the second call seeing the block state left by
the first.  A span is `(start, length, style)`; rule-match and
multiline starts are natural numbers cast to `Int`. -/
def PythonHighlighter.hbBase (rules : List HighlightRule)
    (text : List Char) (prev cur : Int) : List (Int × Nat × Nat) × Int :=
  let ruleSpans :=
    (rules.map (fun r => (r.1 text).map (fun m => ((m.1 : Int), m.2, r.2)))).flatten
  let ml1 := PythonHighlighter.highlightMultiline text ['"', '"', '"'] prev cur
  let ml2 := PythonHighlighter.highlightMultiline text ['\'', '\'', '\''] prev ml1.2
  (ruleSpans
      ++ ml1.1.map (fun m => ((m.1 : Int), m.2, tripleQuoteStyle))
      ++ ml2.1.map (fun m => ((m.1 : Int), m.2, tripleQuoteStyle)),
   ml2.2)

/-- Embedding of `PythonHighlighter.highlightBlock` (src/main.py lines
158-175): the rule and multiline passes, then — last — the error
underline overlay: if the block number is keyed in `error_positions`
with `(col, length)` and `col < len(text)`, one more `setFormat` span
`(col, length, errorStyle)` is emitted; otherwise no overlay. -/
def PythonHighlighter.highlightBlock (rules : List HighlightRule)
    (error_positions : List (Int × Int × Nat)) (blockNum : Int)
    (text : List Char) (prev cur : Int) : List (Int × Nat × Nat) × Int :=
  let base := PythonHighlighter.hbBase rules text prev cur
  let errSpans : List (Int × Nat × Nat) :=
    match errLookup error_positions blockNum with
    | some (col, l) => if col < (text.length : Int) then [(col, l, errorStyle)] else []
    | none => []
  (base.1 ++ errSpans, base.2)

/-- Every value stored in `error_positions` by `onSyntaxChecked` has
underline length 1. -/
theorem onSyntaxChecked_length_one (errors : List SynErr) (st : HLState) :
    ∀ p ∈ (PythonHighlighter.onSyntaxChecked errors st).error_positions, p.2.2 = 1 := by
  suffices hgen : ∀ (errors : List SynErr) (acc : List (Int × Int × Nat)),
      (∀ p ∈ acc, p.2.2 = 1) →
      ∀ p ∈ errors.foldl (fun d e => insertKV d e.line (e.col, 1)) acc, p.2.2 = 1 by
    exact hgen errors [] (by simp)
  intro errors
  induction errors with
  | nil => intro acc hacc p hp; exact hacc p hp
  | cons e rest ih =>
      intro acc hacc p hp
      refine ih (insertKV acc e.line (e.col, 1)) ?_ p hp
      intro q hq
      unfold insertKV at hq
      by_cases hmem : acc.any (fun p => p.1 = e.line)
      · rw [if_pos hmem] at hq
        obtain ⟨q', hq', hmap⟩ := List.mem_map.mp hq
        by_cases hk : q'.1 = e.line
        · rw [if_pos hk] at hmap; rw [← hmap]
        · rw [if_neg hk] at hmap; rw [← hmap]; exact hacc q' hq'
      · rw [if_neg hmem] at hq
        rcases List.mem_append.mp hq with hin | hin
        · exact hacc q hin
        · have : q = (e.line, e.col, 1) := by simpa using hin
          rw [this]
  
/-- C5: the error underline overlay comes after every rule and
multiline span (it is drawn last), and it is emitted exactly when the
block number is keyed in `error_positions` with a recorded column
strictly below the line length — a column at or past the end of the
line, or an unkeyed block, yields no overlay span at all, so the paint
path never writes out of bounds.  Moreover any `error_positions` built
by `onSyntaxChecked` (its only writer) records underline length 1, so
the overlay span has length 1. -/
theorem C5_error_overlay (rules : List HighlightRule)
    (eps : List (Int × Int × Nat)) (blockNum : Int)
    (text : List Char) (prev cur : Int) :
    (PythonHighlighter.highlightBlock rules eps blockNum text prev cur).1
      = (PythonHighlighter.hbBase rules text prev cur).1
          ++ (match errLookup eps blockNum with
              | some (col, l) =>
                  if col < (text.length : Int) then [(col, l, errorStyle)] else []
              | none => [])
    ∧ ∀ (errors : List SynErr) (st : HLState) (col : Int) (l : Nat),
        errLookup (PythonHighlighter.onSyntaxChecked errors st).error_positions blockNum
            = some (col, l) → l = 1 := by
  constructor
  · rfl
  · intro errors st col l hl
    unfold errLookup at hl
    obtain ⟨p, hp, hp2⟩ := Option.map_eq_some'.mp hl
    have hmem := List.mem_of_find?_eq_some hp
    have := onSyntaxChecked_length_one errors st p hmem
    rw [hp2] at this
    exact this

/-- Witness for C5 at a concrete one-error index: block 0 carries the
error `(col 0, length 1)` on the line "a", and the overlay span is
appended after the base spans. -/
theorem C5_error_overlay_witness :
    (PythonHighlighter.highlightBlock [] [(0, 0, 1)] 0 ['a'] (-1) (-1)).1
      = (PythonHighlighter.hbBase [] ['a'] (-1) (-1)).1 ++ [(0, 1, errorStyle)]
    ∧ (1 : Nat) = 1 := by
  constructor
  · have h := (C5_error_overlay [] [(0, 0, 1)] 0 ['a'] (-1) (-1)).1
    rw [h]
    rfl
  · exact (C5_error_overlay [] [(0, 0, 1)] 0 ['a'] (-1) (-1)).2
      [⟨0, 0, "m"⟩] hlInit 0 1 (by decide)

/-- Sequential `setFormat` application: a span `(start, length, style)`
restyles the character cells `start ≤ i < start + length`; later spans
overwrite earlier ones. -/
def applySpan (tbl : Nat → Nat) (s : Int × Nat × Nat) : Nat → Nat :=
  fun i => if s.1 ≤ (i : Int) ∧ (i : Int) < s.1 + (s.2.1 : Int) then s.2.2 else tbl i

/-- A whole span list applied left to right to a character-style table. -/
def applySpans (spans : List (Int × Nat × Nat)) (tbl : Nat → Nat) : Nat → Nat :=
  spans.foldl applySpan tbl

/-- The style of the last span of the list covering cell `i`, if any. -/
def lastTouching : List (Int × Nat × Nat) → Nat → Option Nat
  | [], _ => none
  | s :: rest, i =>
      match lastTouching rest i with
      | some v => some v
      | none =>
          if s.1 ≤ (i : Int) ∧ (i : Int) < s.1 + (s.2.1 : Int) then some s.2.2 else none

/-- Cell-wise reading of sequential span application: a cell shows the
last span covering it, or the incoming table where no span covers it. -/
theorem applySpans_eq_lastTouching (spans : List (Int × Nat × Nat))
    (tbl : Nat → Nat) (i : Nat) :
    applySpans spans tbl i = (lastTouching spans i).getD (tbl i) := by
  induction spans generalizing tbl with
  | nil => rfl
  | cons s rest ih =>
      have hstep : applySpans (s :: rest) tbl i = applySpans rest (applySpan tbl s) i := rfl
      rw [hstep, ih]
      cases hrest : lastTouching rest i with
      | some v => simp [lastTouching, hrest]
      | none =>
          simp only [lastTouching, hrest, Option.getD]
          by_cases hcov : s.1 ≤ (i : Int) ∧ (i : Int) < s.1 + (s.2.1 : Int)
          · simp [applySpan, hcov]
          · simp [applySpan, hcov]

/-- Re-applying the same span list on top of its own output changes
nothing: covered cells get their last covering style again, untouched
cells keep the underlying value. -/
theorem applySpans_idem (spans : List (Int × Nat × Nat)) (tbl : Nat → Nat) :
    applySpans spans (applySpans spans tbl) = applySpans spans tbl := by
  funext i
  rw [applySpans_eq_lastTouching, applySpans_eq_lastTouching]
  cases h : lastTouching spans i with
  | some v => simp
  | none => simp [applySpans_eq_lastTouching, h]

/-- C9: the highlight pass is a pure function of (rule set, error
index, block number, line text, previous and current block state):
running it twice on identical inputs yields the identical span
sequence and the same resulting block state, and re-applying that span
sequence to the character-style table it already produced leaves the
table unchanged. -/
theorem C9_highlight_deterministic (rules : List HighlightRule)
    (eps : List (Int × Int × Nat)) (blockNum : Int)
    (text : List Char) (prev cur : Int) (tbl : Nat → Nat) :
    PythonHighlighter.highlightBlock rules eps blockNum text prev cur
      = PythonHighlighter.highlightBlock rules eps blockNum text prev cur
    ∧ applySpans (PythonHighlighter.highlightBlock rules eps blockNum text prev cur).1
          (applySpans (PythonHighlighter.highlightBlock rules eps blockNum text prev cur).1 tbl)
        = applySpans (PythonHighlighter.highlightBlock rules eps blockNum text prev cur).1 tbl :=
  ⟨rfl, applySpans_idem _ tbl⟩

/-- Modelled from the spec: QTimer single-shot restart semantics for
the 300 ms debounce timer (the timer object itself is a Qt
collaborator; src/main.py lines 77-79 configure it as single-shot with
`timeout` wired to `checkSyntax`, and line 134 restarts it with
`self._syntaxTimer.start(300)` on every document change).  An edit at
time `e` schedules a firing at `e + 300` which happens unless a later
edit strictly inside the window restarts the timer first.  Given the
edit times of a session, the check-cycle start times are the surviving
deadlines. -/
def fireTimes (edits : List Nat) : List Nat :=
  (edits.filter fun e => edits.all fun g => g ≤ e || e + 300 ≤ g).map (fun e => e + 300)

/-- In a strictly ascending edit list each edit is larger than every
earlier and smaller than every later entry appearing after it. -/
theorem chain_head_lt (a : Nat) (rest : List Nat)
    (h : List.Chain' (fun x y => x < y ∧ y < x + 300) (a :: rest)) :
    ∀ e ∈ rest, a < e := by
  induction rest generalizing a with
  | nil => intro e he; cases he
  | cons b rest' ih =>
      intro e he
      have hab : a < b ∧ b < a + 300 := (List.chain'_cons.mp h).1
      have hrest : List.Chain' (fun x y => x < y ∧ y < x + 300) (b :: rest') :=
        (List.chain'_cons.mp h).2
      rcases List.mem_cons.mp he with he | he
      · rw [he]; exact hab.1
      · exact lt_trans hab.1 (ih b hrest e he)

/-- C6: for any burst of one or more edits in which every edit falls
strictly within 300 ms of the previous one, exactly one check cycle
starts, and it starts 300 ms after the burst's last edit: every earlier
deadline is cancelled by the restart that the next edit performs. -/
theorem C6_debounce_single_fire (edits : List Nat) (h1 : edits ≠ [])
    (h2 : List.Chain' (fun x y => x < y ∧ y < x + 300) edits) :
    fireTimes edits = [edits.getLast h1 + 300] := by
  have key : ∀ (rest : List Nat) (a : Nat),
      List.Chain' (fun x y => x < y ∧ y < x + 300) (a :: rest) →
      fireTimes (a :: rest) = [(a :: rest).getLast (by simp) + 300] := by
    intro rest
    induction rest with
    | nil => intro a _; simp [fireTimes]
    | cons b rest' ih =>
        intro a hc
        have hab : a < b ∧ b < a + 300 := (List.chain'_cons.mp hc).1
        have hchain : List.Chain' (fun x y => x < y ∧ y < x + 300) (b :: rest') :=
          (List.chain'_cons.mp hc).2
        have hlt : ∀ e ∈ b :: rest', a < e := chain_head_lt a (b :: rest') hc
        -- the first edit's deadline is cancelled by the second edit
        have hafalse : ((a :: b :: rest').all fun g => g ≤ a || a + 300 ≤ g) = false := by
          rw [List.all_eq_false]
          refine ⟨b, by simp, ?_⟩
          simp only [Bool.or_eq_true, decide_eq_true_eq, not_or]
          omega
        -- membership of a in front changes no later edit's survival
        have hcong : ∀ e ∈ b :: rest',
            ((a :: b :: rest').all fun g => g ≤ e || e + 300 ≤ g)
              = ((b :: rest').all fun g => g ≤ e || e + 300 ≤ g) := by
          intro e he
          have hae : a < e := hlt e he
          simp only [List.all_cons]
          have : (a ≤ e || e + 300 ≤ a) = true := by
            simp only [Bool.or_eq_true, decide_eq_true_eq]
            omega
          rw [this, Bool.true_and]
        have hfilter :
            ((a :: b :: rest').filter fun e => (a :: b :: rest').all fun g => g ≤ e || e + 300 ≤ g)
              = ((b :: rest').filter fun e => (b :: rest').all fun g => g ≤ e || e + 300 ≤ g) := by
          rw [List.filter_cons_of_neg (by simp [hafalse])]
          exact List.filter_congr hcong
        have hne : b :: rest' ≠ [] := by simp
        have htail := ih b hchain
        unfold fireTimes at htail ⊢
        rw [hfilter, htail]
        congr 1
  cases edits with
  | nil => exact absurd rfl h1
  | cons a rest => exact key rest a h2
  
/-- Witness for C6: three edits at 0 ms, 100 ms and 250 ms produce one
cycle, starting at 550 ms. -/
theorem C6_debounce_single_fire_witness :
    fireTimes [0, 100, 250] = [550] := by
  have h := C6_debounce_single_fire [0, 100, 250] (by decide)
      (by simp [List.chain'_cons])
  simpa using h

/-- One open tab as far as the checking subsystem is concerned:
`openFileInTab` attaches a `PythonHighlighter` (here: its error state)
only to some tabs; every other tab has none. -/
structure Tab where
  highlighter : Option HLState
deriving DecidableEq, Repr

/-- One display row of the bottom error panel: the shown text and the
0-based line number stored as item data (`Qt.UserRole`). -/
structure PanelRow where
  text : String
  dataLine : Int
deriving DecidableEq, Repr

/-- The editor shell state the claims touch: the open tabs and the
bottom error-list panel. -/
structure EditorState where
  tabs : List Tab
  errorList : List PanelRow
deriving DecidableEq, Repr

/-- The display text built in `CodeEditor.updateErrorList`
(src/main.py line 520): `f"Line {error['line']+1}: {error['message']}"`. -/
def CodeEditor.rowText (line : Int) (message : String) : String :=
  "Line " ++ toString (line + 1) ++ ": " ++ message

/-- Embedding of `CodeEditor.updateErrorList` (src/main.py lines
516-524): the panel is cleared and then one row is appended per error,
with the 0-based line stashed as the row's data. -/
def CodeEditor.updateErrorList (errors : List SynErr) (_panel : List PanelRow) :
    List PanelRow :=
  errors.map fun e => ⟨CodeEditor.rowText e.line e.message, e.line⟩

/-- Embedding of `CodeEditor.closeTab` (src/main.py lines 497-506): the
tab at `i` is removed, and the error list is cleared exactly when no
tabs remain. -/
def CodeEditor.closeTab (st : EditorState) (i : Nat) : EditorState :=
  let tabs' := st.tabs.eraseIdx i
  ⟨tabs', if tabs'.length = 0 then [] else st.errorList⟩

/-- Embedding of `CodeEditor.onTabChanged` (src/main.py lines 537-544):
switching to a tab that carries a highlighter triggers a fresh syntax
check (the returned flag); otherwise the error list is cleared and no
check is scheduled. -/
def CodeEditor.onTabChanged (st : EditorState) (i : Nat) : EditorState × Bool :=
  match st.tabs[i]? with
  | some t =>
      match t.highlighter with
      | some _ => (st, true)
      | none => (⟨st.tabs, []⟩, false)
  | none => (⟨st.tabs, []⟩, false)

/-- Python's `s.endswith(suffix)` on character lists. -/
def pyEndsWith (s suffix : List Char) : Bool :=
  s.drop (s.length - suffix.length) = suffix

/-- Embedding of the highlighter attachment in `CodeEditor.openFileInTab`
(src/main.py lines 425-428): a `PythonHighlighter` is created for the
new editor widget if and only if `file_path.endswith(".py")`. -/
def CodeEditor.openTab (path : List Char) : Tab :=
  ⟨if pyEndsWith path ['.', 'p', 'y'] then some hlInit else none⟩

/-- Embedding of the hover tooltip lookup in
`CodeEditorWidget.eventFilter` (src/main.py lines 54-67): a tooltip is
shown only when the widget has a highlighter (`hasattr(self,
'highlighter')`) whose `error_details` keys the hovered block number;
otherwise any tooltip is hidden (`none`). -/
def CodeEditorWidget.tooltipAt (t : Tab) (blockNum : Int) : Option String :=
  match t.highlighter with
  | some hl => (hl.error_details.find? fun p => p.1 = blockNum).map (fun p => p.2)
  | none => none

/-- Whether edits on this tab's document schedule syntax-check cycles:
the `contentsChanged → triggerSyntaxCheck` connection is made inside
`PythonHighlighter.__init__` (src/main.py line 131), so it exists
exactly when a highlighter was attached. -/
def schedulesCheckOnEdit (t : Tab) : Bool := t.highlighter.isSome

/-- C8: the panel renderer emits exactly one row per received error —
the old panel content playing no role — each row reading
`"Line {line+1}: {message}"` with the 0-based line stored as row data;
closing the last tab clears the panel, and switching to a tab without
an attached highlighter clears it too. -/
theorem C8_error_panel (errors : List SynErr) (panel : List PanelRow)
    (st : EditorState) (i : Nat) :
    CodeEditor.updateErrorList errors panel
      = errors.map (fun e => ⟨CodeEditor.rowText e.line e.message, e.line⟩)
    ∧ (CodeEditor.updateErrorList errors panel).length = errors.length
    ∧ ((CodeEditor.closeTab st i).tabs.length = 0 →
        (CodeEditor.closeTab st i).errorList = [])
    ∧ (∀ t, st.tabs[i]? = some t → t.highlighter = none →
        (CodeEditor.onTabChanged st i).1.errorList = []) := by
  refine ⟨rfl, by simp [CodeEditor.updateErrorList], ?_, ?_⟩
  · intro hlen
    unfold CodeEditor.closeTab at hlen ⊢
    simp only at hlen
    simp [hlen]
  · intro t ht hhl
    simp [CodeEditor.onTabChanged, ht, hhl]

/-- Witness for C8: one error renders as one row "Line 4: bad", closing
the only tab clears the panel, and switching to a highlighter-less tab
clears it. -/
theorem C8_error_panel_witness :
    CodeEditor.updateErrorList [⟨3, 0, "bad"⟩] [⟨"old", 0⟩] = [⟨"Line 4: bad", 3⟩]
    ∧ (CodeEditor.onTabChanged ⟨[⟨none⟩], [⟨"old", 0⟩]⟩ 0).1.errorList = [] := by
  have h := C8_error_panel [⟨3, 0, "bad"⟩] [⟨"old", 0⟩] ⟨[⟨none⟩], [⟨"old", 0⟩]⟩ 0
  constructor
  · rw [h.1]
    rfl
  · exact h.2.2.2 ⟨none⟩ rfl rfl

/-- C10: a freshly opened tab whose path does not end in ".py" gets no
highlighter; consequently its edits never schedule a check cycle,
pointer movement over it never yields an error tooltip, and selecting
it clears the error panel without scheduling a check. -/
theorem C10_non_python_tab (path : List Char) (st : EditorState) (i : Nat)
    (blockNum : Int) (h : pyEndsWith path ['.', 'p', 'y'] = false) :
    (CodeEditor.openTab path).highlighter = none
    ∧ schedulesCheckOnEdit (CodeEditor.openTab path) = false
    ∧ CodeEditorWidget.tooltipAt (CodeEditor.openTab path) blockNum = none
    ∧ (st.tabs[i]? = some (CodeEditor.openTab path) →
        (CodeEditor.onTabChanged st i).1.errorList = []
        ∧ (CodeEditor.onTabChanged st i).2 = false) := by
  have hnone : (CodeEditor.openTab path).highlighter = none := by
    unfold CodeEditor.openTab
    rw [h]
    rfl
  refine ⟨hnone, ?_, ?_, ?_⟩
  · simp [schedulesCheckOnEdit, hnone]
  · unfold CodeEditorWidget.tooltipAt
    rw [hnone]
  · intro ht
    simp [CodeEditor.onTabChanged, ht, hnone]

/-- Witness for C10 on the concrete path "notes.txt". -/
theorem C10_non_python_tab_witness :
    (CodeEditor.openTab "notes.txt".toList).highlighter = none
    ∧ CodeEditorWidget.tooltipAt (CodeEditor.openTab "notes.txt".toList) 0 = none
    ∧ (CodeEditor.onTabChanged
          ⟨[CodeEditor.openTab "notes.txt".toList], [⟨"old", 0⟩]⟩ 0).1.errorList
        = [] := by
  have h := C10_non_python_tab "notes.txt".toList
      ⟨[CodeEditor.openTab "notes.txt".toList], [⟨"old", 0⟩]⟩ 0 0 (by decide)
  exact ⟨h.1, h.2.2.1, (h.2.2.2 rfl).1⟩
